import Mathlib

/-!
Verification of the extraction / validation / comparison core of
tooluniverse/utils.py against its natural-language specification.

Python text is modelled as lists of characters; Python dictionaries as
association lists (Python dictionaries preserve insertion order and have
no duplicate keys); json.loads as an executable recursive-descent parser
over the standard JSON grammar (whitespace, strings with escapes, numbers,
arrays, objects, true/false/null); Python float values are carried as
rationals, which is adequate here because no claim depends on binary
floating-point rounding.  Fallible Python code returns Option or Except.
-/

/-- Python strings are modelled as lists of characters. -/
abbrev Str := List Char

/-- Turn a Lean string literal into the character-list model. -/
def pys (s : String) : Str := s.data

/-- Whitespace characters removed by the Python method str.strip (ASCII range). -/
def pyWs (c : Char) : Bool :=
  c == ' ' || c == '\t' || c == '\n' || c == '\r' || c == Char.ofNat 11 || c == Char.ofNat 12

/-- Python str.strip(): remove leading and trailing whitespace. -/
def pyStrip (s : Str) : Str :=
  ((s.dropWhile pyWs).reverse.dropWhile pyWs).reverse

/-- Index of the first occurrence of the needle at or after position i, if any. -/
def strFindAux : Str → Str → Nat → Option Nat
  | hay, needle, i =>
    if needle.isPrefixOf hay then some i
    else
      match hay with
      | [] => none
      | _ :: t => strFindAux t needle (i + 1)

/-- Python str.find: index of the first occurrence of the needle, or -1. -/
def strFind (hay needle : Str) : Int :=
  match strFindAux hay needle 0 with
  | some i => Int.ofNat i
  | none => -1

/-- Normalise a Python slice bound against a length: a negative bound counts
from the end of the string, and bounds are clamped into the string. -/
def pyIdx (len : Nat) (i : Int) : Nat :=
  if i < 0 then (Int.ofNat len + i).toNat else min i.toNat len

/-- Python slice s[a:] . -/
def pySliceFrom (s : Str) (a : Int) : Str := s.drop (pyIdx s.length a)

/-- Python slice s[:b] . -/
def pySliceTo (s : Str) (b : Int) : Str := s.take (pyIdx s.length b)

/-- Python slice s[a:b] . -/
def pySlice (s : Str) (a b : Int) : Str :=
  (s.take (pyIdx s.length b)).drop (pyIdx s.length a)

/-- Python values as produced by json.loads.  Integers and real numbers are
kept distinct, exactly as Python distinguishes int from float; float values
are carried as rationals. -/
inductive J where
  | null
  | bool (b : Bool)
  | int (n : Int)
  | float (q : Rat)
  | str (s : Str)
  | arr (xs : List J)
  | obj (fields : List (Str × J))

instance : Inhabited J := ⟨J.null⟩

/-- Dictionary lookup (first binding wins; Python dictionaries are duplicate free). -/
def lookupJ : List (Str × J) → Str → Option J
  | [], _ => none
  | (k, v) :: rest, key => if k == key then some v else lookupJ rest key

/-- Python dictionary insertion: an existing key keeps its position and gets the
new value, a new key is appended.  Used for duplicate keys inside one JSON
object literal (json.loads keeps the last value). -/
def objInsert : List (Str × J) → Str → J → List (Str × J)
  | [], key, v => [(key, v)]
  | (k, w) :: rest, key, v =>
    if k == key then (k, v) :: rest else (k, w) :: objInsert rest key v

/-- Whitespace skipped by the JSON grammar. -/
def jsonWs (c : Char) : Bool := c == ' ' || c == '\t' || c == '\n' || c == '\r'

def skipWs (s : Str) : Str := s.dropWhile jsonWs

def hexVal (c : Char) : Option Nat :=
  if '0' ≤ c && c ≤ '9' then some (c.toNat - 48)
  else if 'a' ≤ c && c ≤ 'f' then some (c.toNat - 87)
  else if 'A' ≤ c && c ≤ 'F' then some (c.toNat - 55)
  else none

/-- Parse the body of a JSON string literal (the opening quote already
consumed), returning the decoded text and the remaining input.  Raw control
characters are rejected, as in the strict mode of json.loads. -/
def parseStringBody : Str → Str → Option (Str × Str)
  | '"' :: rest, acc => some (acc.reverse, rest)
  | '\\' :: e :: rest, acc =>
    if e == '"' then parseStringBody rest ('"' :: acc)
    else if e == '\\' then parseStringBody rest ('\\' :: acc)
    else if e == '/' then parseStringBody rest ('/' :: acc)
    else if e == 'b' then parseStringBody rest (Char.ofNat 8 :: acc)
    else if e == 'f' then parseStringBody rest (Char.ofNat 12 :: acc)
    else if e == 'n' then parseStringBody rest ('\n' :: acc)
    else if e == 'r' then parseStringBody rest ('\r' :: acc)
    else if e == 't' then parseStringBody rest ('\t' :: acc)
    else if e == 'u' then
      match rest with
      | a :: b :: c :: d :: rest2 =>
        match hexVal a, hexVal b, hexVal c, hexVal d with
        | some x, some y, some z, some w =>
          parseStringBody rest2 (Char.ofNat (((x * 16 + y) * 16 + z) * 16 + w) :: acc)
        | _, _, _, _ => none
      | _ => none
    else none
  | c :: rest, acc => if c.toNat < 32 then none else parseStringBody rest (c :: acc)
  | [], _ => none

def digitsToNat (ds : Str) : Nat :=
  ds.foldl (fun acc c => acc * 10 + (c.toNat - 48)) 0

/-- Split a nonempty run of decimal digits off the front of the input. -/
def splitDigits (s : Str) : Option (Str × Str) :=
  match s.takeWhile Char.isDigit with
  | [] => none
  | ds => some (ds, s.drop ds.length)

/-- The integer part of a JSON number: a single 0, or a nonzero digit followed
by digits (leading zeros are not allowed by the grammar). -/
def parseIntPart : Str → Option (Str × Str)
  | '0' :: rest => some (['0'], rest)
  | c :: rest =>
    if c.isDigit then some (c :: rest.takeWhile Char.isDigit, rest.dropWhile Char.isDigit)
    else none
  | [] => none

/-- The fractional part of a JSON number, when present: a dot followed by at
least one digit. -/
def parseFracPart : Str → Option (Str × Str)
  | c :: rest => if c == '.' then splitDigits rest else none
  | [] => none

/-- The exponent part of a JSON number, when present. -/
def parseExpPart : Str → Option (Int × Str)
  | c :: rest =>
    if c == 'e' || c == 'E' then
      match rest with
      | d :: r2 =>
        if d == '+' then (splitDigits r2).map (fun p => (Int.ofNat (digitsToNat p.1), p.2))
        else if d == '-' then (splitDigits r2).map (fun p => (-Int.ofNat (digitsToNat p.1), p.2))
        else (splitDigits rest).map (fun p => (Int.ofNat (digitsToNat p.1), p.2))
      | [] => none
    else none
  | [] => none

def ratPow10 (e : Int) : Rat :=
  if 0 ≤ e then ((10 : Rat) ^ e.toNat) else 1 / ((10 : Rat) ^ (-e).toNat)

def applySign (neg : Bool) (q : Rat) : Rat := if neg then -q else q

/-- A JSON number.  Whole numbers without fraction or exponent become Python
int, anything else becomes Python float. -/
def parseNumber (s : Str) : Option (J × Str) :=
  let signSplit : Bool × Str :=
    match s with
    | '-' :: rest => (true, rest)
    | _ => (false, s)
  match parseIntPart signSplit.2 with
  | none => none
  | some (ids, s2) =>
    let iv : Nat := digitsToNat ids
    match parseFracPart s2 with
    | some (fds, s3) =>
      let mant : Rat := (iv : Rat) + (digitsToNat fds : Rat) / ((10 : Rat) ^ fds.length)
      match parseExpPart s3 with
      | some (e, s4) => some (J.float (applySign signSplit.1 (mant * ratPow10 e)), s4)
      | none => some (J.float (applySign signSplit.1 mant), s3)
    | none =>
      match parseExpPart s2 with
      | some (e, s3) => some (J.float (applySign signSplit.1 ((iv : Rat) * ratPow10 e)), s3)
      | none =>
        some (J.int (if signSplit.1 then -Int.ofNat iv else Int.ofNat iv), s2)

mutual

/-- Parse one JSON value (fuelled recursion; every recursive step follows the
consumption of at least one character, so fuel of input length plus one never
runs out). -/
def parseVal : Nat → Str → Option (J × Str)
  | 0, _ => none
  | Nat.succ fuel, s =>
    match skipWs s with
    | [] => none
    | c :: rest =>
      if c == '"' then
        match parseStringBody rest [] with
        | some (t, r2) => some (J.str t, r2)
        | none => none
      else if c == Char.ofNat 123 then
        match skipWs rest with
        | d :: r2 =>
          if d == Char.ofNat 125 then some (J.obj [], r2)
          else parseMembers fuel rest []
        | [] => none
      else if c == '[' then
        match skipWs rest with
        | d :: r2 =>
          if d == ']' then some (J.arr [], r2)
          else parseElems fuel rest []
        | [] => none
      else if c == 't' then
        if (pys ("rue")).isPrefixOf rest then some (J.bool true, rest.drop 3) else none
      else if c == 'f' then
        if (pys ("alse")).isPrefixOf rest then some (J.bool false, rest.drop 4) else none
      else if c == 'n' then
        if (pys ("ull")).isPrefixOf rest then some (J.null, rest.drop 3) else none
      else
        parseNumber (c :: rest)

/-- The members of a JSON object after the opening brace (known nonempty). -/
def parseMembers : Nat → Str → List (Str × J) → Option (J × Str)
  | 0, _, _ => none
  | Nat.succ fuel, s, acc =>
    match skipWs s with
    | c :: rest =>
      if c == '"' then
        match parseStringBody rest [] with
        | some (key, r2) =>
          match skipWs r2 with
          | d :: r3 =>
            if d == ':' then
              match parseVal fuel r3 with
              | some (v, r4) =>
                match skipWs r4 with
                | e :: r5 =>
                  if e == ',' then parseMembers fuel r5 (objInsert acc key v)
                  else if e == Char.ofNat 125 then some (J.obj (objInsert acc key v), r5)
                  else none
                | [] => none
              | none => none
            else none
          | [] => none
        | none => none
      else none
    | [] => none

/-- The elements of a JSON array after the opening bracket (known nonempty). -/
def parseElems : Nat → Str → List J → Option (J × Str)
  | 0, _, _ => none
  | Nat.succ fuel, s, acc =>
    match parseVal fuel s with
    | some (v, r) =>
      match skipWs r with
      | c :: r2 =>
        if c == ',' then parseElems fuel r2 (acc ++ [v])
        else if c == ']' then some (J.arr (acc ++ [v]), r2)
        else none
      | [] => none
    | none => none

end

/-- Model of json.loads: parse one JSON document; anything but trailing
whitespace after the value is an error. -/
def jsonParse (s : Str) : Option J :=
  match parseVal (s.length + 1) s with
  | some (v, rest) => if (skipWs rest).isEmpty then some v else none
  | none => none

/-! ## Python value equality and well-formedness

Python == on the values json.loads can produce: numeric values compare by
value across bool, int and float (True == 1, 1 == 1.0); strings compare as
text; lists elementwise; dictionaries by keys and values (order does not
matter).  A value is well formed when every nested dictionary has duplicate
free keys, which is true of every Python dictionary. -/

mutual

def pyEq : J → J → Bool
  | J.null, J.null => true
  | J.bool a, J.bool b => a == b
  | J.bool a, J.int n => decide ((if a then (1 : Int) else 0) = n)
  | J.bool a, J.float q => decide ((if a then (1 : Rat) else 0) = q)
  | J.int n, J.bool b => decide (n = (if b then 1 else 0))
  | J.int m, J.int n => m == n
  | J.int m, J.float q => decide ((m : Rat) = q)
  | J.float q, J.bool b => decide (q = (if b then (1 : Rat) else 0))
  | J.float q, J.int n => decide (q = (n : Rat))
  | J.float p, J.float q => decide (p = q)
  | J.str a, J.str b => a == b
  | J.arr a, J.arr b => pyEqList a b
  | J.obj a, J.obj b => a.length == b.length && pyEqFields a b
  | _, _ => false

def pyEqList : List J → List J → Bool
  | [], [] => true
  | x :: xs, y :: ys => pyEq x y && pyEqList xs ys
  | _, _ => false

def pyEqFields : List (Str × J) → List (Str × J) → Bool
  | [], _ => true
  | (k, v) :: rest, b =>
    (match lookupJ b k with
     | some w => pyEq v w
     | none => false) && pyEqFields rest b

end

/-- Duplicate freedom of a key list. -/
def keysND : List Str → Bool
  | [] => true
  | k :: ks => !(ks.contains k) && keysND ks

mutual

def jWf : J → Bool
  | J.arr xs => jWfList xs
  | J.obj fs => keysND (fs.map Prod.fst) && jWfFields fs
  | _ => true

def jWfList : List J → Bool
  | [] => true
  | x :: xs => jWf x && jWfList xs

def jWfFields : List (Str × J) → Bool
  | [] => true
  | (_, v) :: rest => jWf v && jWfFields rest

end

/-! ## Python repr strings used in the verdict messages -/

/-- The apostrophe character. -/
def aposChar : Char := Char.ofNat 39

/-- Python repr of a string (single quoted; names never contain quotes here). -/
def quoted (s : Str) : Str := aposChar :: (s ++ [aposChar])

def commaSep : Str := pys (", ")

/-- Python repr of a list of strings. -/
def pyReprStrList (l : List Str) : Str :=
  '[' :: (List.intercalate commaSep (l.map quoted) ++ [']'])

/-- Python repr of a (name, expected type, actual type) tuple. -/
def pyReprTriple (t : Str × Str × Str) : Str :=
  '(' :: (quoted t.1 ++ commaSep ++ quoted t.2.1 ++ commaSep ++ quoted t.2.2 ++ [')'])

/-- Python repr of a list of such tuples. -/
def pyReprMisList (l : List (Str × Str × Str)) : Str :=
  '[' :: (List.intercalate commaSep (l.map pyReprTriple) ++ [']'])

def natRepr (n : Nat) : Str := Nat.toDigits 10 n

def intRepr (n : Int) : Str :=
  if n < 0 then '-' :: natRepr (-n).toNat else natRepr n.toNat

/-- Stand-in for the Python float repr: the value as numerator/denominator.
No claim inspects a message containing a float repr. -/
def ratRepr (q : Rat) : Str := intRepr q.num ++ ('/' :: natRepr q.den)

mutual

/-- Python repr of a value (used only inside verdict messages). -/
def pyReprJ : J → Str
  | J.null => pys ("None")
  | J.bool true => pys ("True")
  | J.bool false => pys ("False")
  | J.int n => intRepr n
  | J.float q => ratRepr q
  | J.str s => quoted s
  | J.arr xs => '[' :: (pyReprJList xs ++ [']'])
  | J.obj fs => Char.ofNat 123 :: (pyReprJFields fs ++ [Char.ofNat 125])

def pyReprJList : List J → Str
  | [] => []
  | [x] => pyReprJ x
  | x :: y :: rest => pyReprJ x ++ commaSep ++ pyReprJList (y :: rest)

def pyReprJFields : List (Str × J) → Str
  | [] => []
  | [(k, v)] => quoted k ++ pys (": ") ++ pyReprJ v
  | (k, v) :: y :: rest => quoted k ++ pys (": ") ++ pyReprJ v ++ commaSep ++ pyReprJFields (y :: rest)

end

/-- Python repr of a (key, predicted value, reference value) mismatch tuple. -/
def pyReprValTriple (t : Str × J × J) : Str :=
  '(' :: (quoted t.1 ++ commaSep ++ pyReprJ t.2.1 ++ commaSep ++ pyReprJ t.2.2 ++ [')'])

def pyReprValMisList (l : List (Str × J × J)) : Str :=
  '[' :: (List.intercalate commaSep (l.map pyReprValTriple) ++ [']'])

/-- Keep-first deduplication, giving the iteration order of a Python set built
from the list (the true CPython set order is hash dependent; no claim inspects
a message depending on it). -/
def dedupKeys (l : List Str) : List Str :=
  l.foldl (fun acc k => if acc.contains k then acc else acc ++ [k]) []

def setDiff (a b : List Str) : List Str :=
  (dedupKeys a).filter (fun k => !(b.contains k))

/-- Display of a Python set of strings. -/
def pySetRepr (l : List Str) : Str :=
  match l with
  | [] => pys ("set()")
  | _ => Char.ofNat 123 :: (List.intercalate commaSep (l.map quoted) ++ [Char.ofNat 125])

/-! ## evaluate_function_call -/

/-- The six Python types appearing in the type conversion map. -/
inductive PyTy where
  | pystr | pyint | pyfloat | pybool | pylist | pydict

/-- The type_map of evaluate_function_call: string, integer, number, boolean,
array, object mapped to the Python types str, int, float, bool, list, dict. -/
def typeMap (t : Str) : Option PyTy :=
  if t == pys ("string") then some PyTy.pystr
  else if t == pys ("integer") then some PyTy.pyint
  else if t == pys ("number") then some PyTy.pyfloat
  else if t == pys ("boolean") then some PyTy.pybool
  else if t == pys ("array") then some PyTy.pylist
  else if t == pys ("object") then some PyTy.pydict
  else none

/-- Python isinstance on these types.  bool is a subclass of int in Python, so
a bool value is an instance of int; an int value is not an instance of float. -/
def isinstance (v : J) (t : PyTy) : Bool :=
  match v, t with
  | J.str _, PyTy.pystr => true
  | J.int _, PyTy.pyint => true
  | J.bool _, PyTy.pyint => true
  | J.bool _, PyTy.pybool => true
  | J.float _, PyTy.pyfloat => true
  | J.arr _, PyTy.pylist => true
  | J.obj _, PyTy.pydict => true
  | _, _ => false

/-- type(value).__name__ for the values json.loads can produce. -/
def pyTypeName (v : J) : Str :=
  match v with
  | J.null => pys ("NoneType")
  | J.bool _ => pys ("bool")
  | J.int _ => pys ("int")
  | J.float _ => pys ("float")
  | J.str _ => pys ("str")
  | J.arr _ => pys ("list")
  | J.obj _ => pys ("dict")

/-- A property descriptor of the parameter schema: declared type and the
required flag (value.get("required", False)). -/
structure PropDesc where
  type : Str
  required : Bool

/-- tool_definition["parameter"] : holds the properties mapping. -/
structure ToolParameter where
  properties : List (Str × PropDesc)

/-- A tool definition: name and parameter schema. -/
structure ToolDef where
  name : Str
  parameter : ToolParameter

/-- A function call: mapping with the keys name and arguments. -/
structure FunctionCall where
  name : Str
  arguments : List (Str × J)

def lookupP : List (Str × PropDesc) → Str → Option PropDesc
  | [], _ => none
  | (k, v) :: rest, key => if k == key then some v else lookupP rest key

/-- The keys flagged required in the schema properties. -/
def requiredParams (props : List (Str × PropDesc)) : List Str :=
  (props.filter (fun kv => kv.2.required)).map Prod.fst

/-- The required keys absent from the call arguments. -/
def missingParams (props : List (Str × PropDesc)) (args : List (Str × J)) : List Str :=
  (requiredParams props).filter (fun p => !((args.map Prod.fst).contains p))

/-- Outcome of the scan over the provided arguments: either an early return on
an unsupported declared type, or the collected invalid names and type
mismatches. -/
inductive ScanOut where
  | unsupported (t : Str)
  | done (invalid : List Str) (mismatches : List (Str × Str × Str))

/-- The loop of evaluate_function_call over function_call["arguments"]: an
unknown key is collected; for a known key an unsupported declared type returns
immediately, and a failing isinstance test collects a mismatch triple. -/
def scanArgs (props : List (Str × PropDesc)) :
    List (Str × J) → List Str → List (Str × Str × Str) → ScanOut
  | [], inv, mis => ScanOut.done inv mis
  | (p, v) :: rest, inv, mis =>
    match lookupP props p with
    | none => scanArgs props rest (inv ++ [p]) mis
    | some pd =>
      match typeMap pd.type with
      | none => ScanOut.unsupported pd.type
      | some ty =>
        if isinstance v ty then scanArgs props rest inv mis
        else scanArgs props rest inv (mis ++ [(p, pd.type, pyTypeName v)])

/-- Embedding of evaluate_function_call. -/
def evaluate_function_call (tool_definition : ToolDef) (function_call : FunctionCall) :
    Bool × Str :=
  if !(tool_definition.name == function_call.name) then
    (false, pys ("Function name does not match."))
  else
    if !(missingParams tool_definition.parameter.properties function_call.arguments).isEmpty then
      (false, pys ("Missing required parameters: ")
        ++ pyReprStrList (missingParams tool_definition.parameter.properties function_call.arguments))
    else
      match scanArgs tool_definition.parameter.properties function_call.arguments [] [] with
      | ScanOut.unsupported t => (false, pys ("Unsupported parameter type: ") ++ t)
      | ScanOut.done inv mis =>
        if !inv.isEmpty then (false, pys ("Invalid parameters provided: ") ++ pyReprStrList inv)
        else if !mis.isEmpty then (false, pys ("Type mismatches: ") ++ pyReprMisList mis)
        else (true, pys ("Function call is valid."))

/-! ## compare_function_calls -/

/-- A Python exception escaping a function. -/
inductive PyExc where
  | keyError (key : Str)

def keysOf (l : List (Str × J)) : List Str := l.map Prod.fst

/-- Python set equality of two key lists. -/
def pySetEq (a b : List Str) : Bool :=
  a.all (fun k => b.contains k) && b.all (fun k => a.contains k)

/-- The value comparison loop: for every key of the predicted arguments, look
the key up on both sides (the lookup on the reference side can raise KeyError)
and collect the mismatching triples. -/
def collectMismatches (pred gt : List (Str × J)) : List Str → Except PyExc (List (Str × J × J))
  | [] => Except.ok []
  | k :: ks =>
    match lookupJ pred k with
    | some v =>
      match lookupJ gt k with
      | some w =>
        match collectMismatches pred gt ks with
        | Except.ok rest => Except.ok (if pyEq v w then rest else (k, v, w) :: rest)
        | Except.error e => Except.error e
      | none => Except.error (PyExc.keyError k)
    | none => Except.error (PyExc.keyError k)

/-- Embedding of compare_function_calls.  The result is an Except value: the
Python function can raise KeyError out of the value comparison loop. -/
def compare_function_calls (pred_function_call gt_function_call : FunctionCall)
    (compare_arguments compare_value : Bool) : Except PyExc (Bool × Str) :=
  if !(pred_function_call.name == gt_function_call.name) then
    Except.ok (false, pys ("Function names do not match."))
  else if compare_arguments
      && !(pySetEq (keysOf pred_function_call.arguments) (keysOf gt_function_call.arguments)) then
    Except.ok (false, pys ("Argument keys do not match. Missing in predicted: ")
      ++ pySetRepr (setDiff (keysOf gt_function_call.arguments) (keysOf pred_function_call.arguments))
      ++ pys (", Missing in ground truth: ")
      ++ pySetRepr (setDiff (keysOf pred_function_call.arguments) (keysOf gt_function_call.arguments)))
  else if compare_value then
    match collectMismatches pred_function_call.arguments gt_function_call.arguments
        (keysOf pred_function_call.arguments) with
    | Except.error e => Except.error e
    | Except.ok [] => Except.ok (true, pys ("Function calls match."))
    | Except.ok ms => Except.ok (false, pys ("Argument values do not match: ") ++ pyReprValMisList ms)
  else Except.ok (true, pys ("Function calls match."))

/-! ## Extraction

Both extraction functions take either an already parsed dictionary or a list
of text fragments, and return either a bare call (a dictionary or None) or a
(call, message) pair, depending on the branch taken and on return_message.
Each embedding also returns the list of lines it printed, so that the effect
of the verbose flag is part of the model. -/

/-- The input of the extraction functions: an already structured dictionary or
a list of text fragments joined without separator. -/
inductive PyIn where
  | dict (fields : List (Str × J))
  | strs (parts : List Str)

/-- The heterogeneous return shape of the extraction functions: a bare call
value, or a (call, message) pair. -/
inductive ExtractRet where
  | single (call : Option J)
  | pair (call : Option J) (message : Str)

/-- The common pattern: a pair when a message was requested, else a bare value. -/
def retWith (rm : Bool) (call : Option J) (message : Str) : ExtractRet :=
  if rm then ExtractRet.pair call message else ExtractRet.single call

def tagToolCalls : Str := pys ("[TOOL_CALLS]")
def tagEos : Str := pys ("</s>")
def tagEom : Str := pys ("<|eom_id|>")
def tagFcOpen : Str := pys ("<functioncall>")
def tagFcClose : Str := pys ("</functioncall>")
def tagTcOpen : Str := pys ("<tool_call>")
def tagTcClose : Str := pys ("</tool_call>")
def tagThinkOpen : Str := pys ("<think>")
def tagThinkClose : Str := pys ("</think>")

/-- Diagnostic lines (the ANSI colour codes and the parser error details of the
printed lines are omitted; nothing depends on their exact content). -/
def genHeader : Str := pys ("Possible LLM outputs for function call: ")
def genMultiMsg : Str := pys ("Multiple function calls not implemented for \x27llama\x27 format.")
def genNotFcMsg : Str := pys ("Not a function call: ")
def qwenHeader : Str := pys ("Qwen LLM outputs for function call: ")
def qwenErrTc : Str := pys ("Failed to parse JSON in <tool_call>: ")
def qwenErrBr : Str := pys ("Failed to parse JSON in [TOOL_CALLS]: ")
def qwenErrFc : Str := pys ("Failed to parse JSON in <functioncall>: ")
def qwenFailMsg : Str := pys ("Not a valid function call format for Qwen")

/-- The string sliced out by the bracket tag attempt of
extract_function_call_json: from just after the first occurrence of
[TOOL_CALLS] (the find result -1 is used unguarded when the tag is absent) to
the first end marker, or to the end of the string when neither end marker
occurs. -/
def genericBracketSlice (s : Str) : Str :=
  if (if strFind s tagEos = -1 then strFind s tagEom else strFind s tagEos) = -1 then
    pySliceFrom s (strFind s tagToolCalls + (tagToolCalls.length : Int))
  else
    pySlice s (strFind s tagToolCalls + (tagToolCalls.length : Int))
      (if strFind s tagEos = -1 then strFind s tagEom else strFind s tagEos)

/-- The string sliced out by the legacy angle tag attempt of
extract_function_call_json: both find results are used unguarded, so a missing
close tag makes the stop bound -1, i.e. the slice stops one character before
the end of the string. -/
def genericAngleSlice (s : Str) : Str :=
  pySlice s (strFind s tagFcOpen + (tagFcOpen.length : Int)) (strFind s tagFcClose)

/-- Embedding of extract_function_call_json (the generic family).  The first
component is the returned value, the second the printed lines. -/
def extract_function_call_json (verbose : Bool) (lst : PyIn) (return_message : Bool) :
    ExtractRet × List Str :=
  match lst with
  | PyIn.dict d => (retWith return_message (some (J.obj d)) [], [])
  | PyIn.strs parts =>
    match jsonParse (pyStrip parts.flatten) with
    | some j =>
      (retWith return_message (some j) [],
       if verbose then [genHeader ++ parts.flatten] else [])
    | none =>
      match jsonParse (pyStrip (genericBracketSlice parts.flatten)) with
      | some j =>
        (retWith return_message (some j) (pySliceTo parts.flatten (strFind parts.flatten tagToolCalls)),
         if verbose then [genHeader ++ parts.flatten] else [])
      | none =>
        match jsonParse (pyStrip (genericAngleSlice parts.flatten)) with
        | some j =>
          (ExtractRet.single (some j),
           (if verbose then [genHeader ++ parts.flatten] else []) ++ [genMultiMsg])
        | none =>
          (retWith return_message none parts.flatten,
           (if verbose then [genHeader ++ parts.flatten] else []) ++ [genMultiMsg, genNotFcMsg])

/-- The message attached to a successful tool_call extraction: the think block
content when a complete think block exists, otherwise the text before the
tool_call open tag, stripped either way. -/
def qwenThinkMessage (s : Str) (tcStart : Int) : Str :=
  if strFind s tagThinkOpen ≠ -1 ∧ strFind s tagThinkClose ≠ -1 then
    pyStrip (pySlice s (strFind s tagThinkOpen + (tagThinkOpen.length : Int)) (strFind s tagThinkClose))
  else
    pyStrip (pySliceTo s tcStart)

/-- The tool_call attempt of the qwen extractor: requires both tags, parses the
slice between them.  Returns the attempt outcome and the lines printed. -/
def qwenToolCallAttempt (verbose : Bool) (s : Str) (rm : Bool) : Option ExtractRet × List Str :=
  if strFind s tagTcOpen ≠ -1 ∧ strFind s tagTcClose ≠ -1 then
    match jsonParse (pyStrip (pySlice s (strFind s tagTcOpen + (tagTcOpen.length : Int))
        (strFind s tagTcClose))) with
    | some j =>
      (some (if rm then ExtractRet.pair (some j) (qwenThinkMessage s (strFind s tagTcOpen))
             else ExtractRet.single (some j)), [])
    | none => (none, if verbose then [qwenErrTc] else [])
  else (none, [])

/-- The bracket tag attempt of the qwen extractor: guarded on the open tag
being present (unlike the generic extractor). -/
def qwenBracketAttempt (verbose : Bool) (s : Str) (rm : Bool) : Option ExtractRet × List Str :=
  if strFind s tagToolCalls ≠ -1 then
    match jsonParse (pyStrip (genericBracketSlice s)) with
    | some j => (some (retWith rm (some j) (pySliceTo s (strFind s tagToolCalls))), [])
    | none => (none, if verbose then [qwenErrBr] else [])
  else (none, [])

/-- The legacy angle tag attempt of the qwen extractor: both tags must be
present or the attempt is skipped. -/
def qwenFuncallAttempt (verbose : Bool) (s : Str) (rm : Bool) : Option ExtractRet × List Str :=
  if strFind s tagFcOpen ≠ -1 then
    if strFind s tagFcClose ≠ -1 then
      match jsonParse (pyStrip (pySlice s (strFind s tagFcOpen + (tagFcOpen.length : Int))
          (strFind s tagFcClose))) with
      | some j => (some (retWith rm (some j) (pySliceTo s (strFind s tagFcOpen))), [])
      | none => (none, if verbose then [qwenErrFc] else [])
    else (none, [])
  else (none, [])

/-- Embedding of extract_function_call_json_from_qwen (the reasoning family):
whole-string JSON, then tool_call, then bracket tag, then the legacy angle
tag, then failure with the original text as the message. -/
def extract_function_call_json_from_qwen (verbose : Bool) (lst : PyIn) (return_message : Bool) :
    ExtractRet × List Str :=
  match lst with
  | PyIn.dict d => (retWith return_message (some (J.obj d)) [], [])
  | PyIn.strs parts =>
    match jsonParse (pyStrip parts.flatten) with
    | some j =>
      (retWith return_message (some j) [],
       if verbose then [qwenHeader ++ parts.flatten] else [])
    | none =>
      match qwenToolCallAttempt verbose parts.flatten return_message with
      | (some r, lg) => (r, (if verbose then [qwenHeader ++ parts.flatten] else []) ++ lg)
      | (none, lg1) =>
        match qwenBracketAttempt verbose parts.flatten return_message with
        | (some r, lg) => (r, (if verbose then [qwenHeader ++ parts.flatten] else []) ++ lg1 ++ lg)
        | (none, lg2) =>
          match qwenFuncallAttempt verbose parts.flatten return_message with
          | (some r, lg) =>
            (r, (if verbose then [qwenHeader ++ parts.flatten] else []) ++ lg1 ++ lg2 ++ lg)
          | (none, lg3) =>
            (retWith return_message none parts.flatten,
             (if verbose then [qwenHeader ++ parts.flatten] else []) ++ lg1 ++ lg2 ++ lg3
               ++ (if verbose then [qwenFailMsg] else []))

/-! ## Concrete values used by the theorems -/

/-- The parse result of the JSON text for a minimal call object. -/
def fCallEmpty : J :=
  J.obj [(pys ("name"), J.str (pys ("f"))), (pys ("arguments"), J.obj [])]

/-- A schema with one required parameter of declared type number. -/
def numberTool : ToolDef := ⟨pys ("t"), ⟨[(pys ("x"), ⟨pys ("number"), true⟩)]⟩⟩

/-- A schema with one required parameter of declared type integer. -/
def integerTool : ToolDef := ⟨pys ("t"), ⟨[(pys ("x"), ⟨pys ("integer"), true⟩)]⟩⟩

/-! ## Theorems for the claims -/

/-- C1, counterexample: the text of eleven letters a followed by 1 contains
none of the four recognized shapes and is not itself JSON, yet the generic
extractor returns the call 1 with a message that drops the last character of
the input, because the unguarded find result -1 makes the bracket tag attempt
slice from index 11 and that slice parses as JSON.  This refutes the claim
that extraction always returns an absent call with the full original text as
the message on such inputs. -/
theorem c1_counterexample :
    strFind (pys ("aaaaaaaaaaa1")) tagToolCalls = -1 ∧
    strFind (pys ("aaaaaaaaaaa1")) tagTcOpen = -1 ∧
    strFind (pys ("aaaaaaaaaaa1")) tagFcOpen = -1 ∧
    jsonParse (pyStrip (pys ("aaaaaaaaaaa1"))) = none ∧
    (extract_function_call_json true (PyIn.strs [pys ("aaaaaaaaaaa1")]) true).1
      = ExtractRet.pair (some (J.int 1)) (pys ("aaaaaaaaaaa")) :=
  ⟨rfl, rfl, rfl, rfl, rfl⟩

/-- C2, code bug shown on a concrete input: with compare_arguments false and
compare_value true, a predicted argument key absent from the reference call
makes compare_function_calls raise KeyError instead of returning a verdict. -/
theorem c2_keyerror_on_pred_only_key :
    compare_function_calls ⟨pys ("f"), [(pys ("x"), J.int 1)]⟩ ⟨pys ("f"), []⟩ false true
      = Except.error (PyExc.keyError (pys ("x"))) := rfl

/-- C3, counterexample: on a text with the angle open tag but no close tag,
the slice from just after the open tag to the end of the string parses as
JSON, yet both extractors return an absent call: the generic extractor slices
to the second to last character (Python stop bound -1), and the qwen extractor
skips the attempt entirely.  This refutes the claim for the angle tag
format. -/
theorem c3_counterexample :
    strFind (pys ("<functioncall>\x7b\"name\": \"f\", \"arguments\": \x7b\x7d\x7d")) tagFcOpen = 0 ∧
    strFind (pys ("<functioncall>\x7b\"name\": \"f\", \"arguments\": \x7b\x7d\x7d")) tagFcClose = -1 ∧
    jsonParse (pyStrip (pySliceFrom
        (pys ("<functioncall>\x7b\"name\": \"f\", \"arguments\": \x7b\x7d\x7d")) 14))
      = some fCallEmpty ∧
    (extract_function_call_json true
        (PyIn.strs [pys ("<functioncall>\x7b\"name\": \"f\", \"arguments\": \x7b\x7d\x7d")]) true).1
      = ExtractRet.pair none (pys ("<functioncall>\x7b\"name\": \"f\", \"arguments\": \x7b\x7d\x7d")) ∧
    (extract_function_call_json_from_qwen true
        (PyIn.strs [pys ("<functioncall>\x7b\"name\": \"f\", \"arguments\": \x7b\x7d\x7d")]) true).1
      = ExtractRet.pair none (pys ("<functioncall>\x7b\"name\": \"f\", \"arguments\": \x7b\x7d\x7d")) :=
  ⟨rfl, rfl, rfl, rfl, rfl⟩

/-- C4, code bug shown on a concrete input: with a message requested, the
legacy angle tag path of the generic extractor returns the bare call value,
not a (call, message) pair. -/
theorem c4_legacy_path_omits_message :
    (extract_function_call_json true
        (PyIn.strs
          [pys ("<functioncall>\x7b\"name\": \"f\", \"arguments\": \x7b\x7d\x7d</functioncall>")])
        true).1
      = ExtractRet.single (some fCallEmpty) := rfl

/-- C5, counterexample: the call supplies the unknown argument z and the known
argument a whose declared type weird is unsupported; evaluate_function_call
returns the unsupported-type failure, not the invalid-parameter failure, so an
unsupported-type reason can be returned while an unknown argument exists. -/
theorem c5_counterexample :
    lookupP [(pys ("a"), PropDesc.mk (pys ("weird")) false)] (pys ("z")) = none ∧
    evaluate_function_call ⟨pys ("t"), ⟨[(pys ("a"), ⟨pys ("weird"), false⟩)]⟩⟩
        ⟨pys ("t"), [(pys ("z"), J.int 1), (pys ("a"), J.int 1)]⟩
      = (false, pys ("Unsupported parameter type: weird")) :=
  ⟨rfl, rfl⟩

/-- C6, counterexample: a whole number supplied for a parameter declared
number produces a type mismatch entry (Python isinstance(1, float) is false),
refuting the claim that number accepts any numeric value. -/
theorem c6_counterexample :
    evaluate_function_call numberTool ⟨pys ("t"), [(pys ("x"), J.int 1)]⟩
      = (false, pys ("Type mismatches: [(\x27x\x27, \x27number\x27, \x27int\x27)]")) := rfl

/-- C6, amended: a parameter declared number accepts exactly float values: a
float argument yields a valid verdict, while an int argument yields a type
mismatch naming (x, number, int). -/
theorem c6_number_accepts_only_float :
    (∀ q : Rat, evaluate_function_call numberTool ⟨pys ("t"), [(pys ("x"), J.float q)]⟩
        = (true, pys ("Function call is valid."))) ∧
    (∀ n : Int, evaluate_function_call numberTool ⟨pys ("t"), [(pys ("x"), J.int n)]⟩
        = (false, pys ("Type mismatches: [(\x27x\x27, \x27number\x27, \x27int\x27)]"))) :=
  ⟨fun _ => rfl, fun _ => rfl⟩

/-- C10: a boolean argument passes the isinstance test for a parameter
declared integer (bool is a subclass of int in Python), so an otherwise valid
call with a boolean where an integer is declared is reported valid. -/
theorem c10_bool_passes_integer :
    (∀ b : Bool, isinstance (J.bool b) PyTy.pyint = true) ∧
    (∀ b : Bool, evaluate_function_call integerTool ⟨pys ("t"), [(pys ("x"), J.bool b)]⟩
        = (true, pys ("Function call is valid."))) :=
  ⟨fun _ => rfl, fun _ => rfl⟩

/-- A valid call object: a dictionary with a string under name and a
dictionary under arguments. -/
def isCallObj (j : J) : Bool :=
  match j with
  | J.obj fs =>
    (match lookupJ fs (pys ("name")) with
     | some (J.str _) => true
     | _ => false) &&
    (match lookupJ fs (pys ("arguments")) with
     | some (J.obj _) => true
     | _ => false)
  | _ => false

/-- C7: whenever the whole trimmed text parses as JSON (in particular as a
valid call object), both extraction functions return that call with the empty
string as the message. -/
theorem c7_whole_string_json (s : Str) (j : J) (v : Bool)
    (h0 : jsonParse (pyStrip s) = some j) (_h1 : isCallObj j = true) :
    (extract_function_call_json v (PyIn.strs [s]) true).1 = ExtractRet.pair (some j) [] ∧
    (extract_function_call_json_from_qwen v (PyIn.strs [s]) true).1
      = ExtractRet.pair (some j) [] := by
  have hflat : ([s] : List Str).flatten = s := by simp
  constructor
  · simp only [extract_function_call_json, hflat, h0, retWith, if_true]
  · simp only [extract_function_call_json_from_qwen, hflat, h0, retWith, if_true]

/-- C7 witness: a concrete whole-string JSON call object is extracted with the
empty message by both functions. -/
theorem c7_witness :
    (extract_function_call_json true
        (PyIn.strs [pys ("\x7b\"name\": \"f\", \"arguments\": \x7b\x7d\x7d")]) true).1
      = ExtractRet.pair (some fCallEmpty) [] ∧
    (extract_function_call_json_from_qwen true
        (PyIn.strs [pys ("\x7b\"name\": \"f\", \"arguments\": \x7b\x7d\x7d")]) true).1
      = ExtractRet.pair (some fCallEmpty) [] :=
  c7_whole_string_json (pys ("\x7b\"name\": \"f\", \"arguments\": \x7b\x7d\x7d"))
    fCallEmpty true rfl rfl

/-- C1, amended: on text containing none of the four recognized shapes, both
extractors return an absent call with the full original text as the message
(empty result when no message is requested), provided additionally that the
two fallback slices of the generic extractor, which arise from the unguarded
find results, do not parse as JSON; the qwen extractor needs no such extra
condition. -/
theorem c1_no_shape_extraction (s : Str) (v rm : Bool)
    (h0 : jsonParse (pyStrip s) = none)
    (h1 : strFind s tagToolCalls = -1)
    (h2 : strFind s tagTcOpen = -1 ∨ strFind s tagTcClose = -1)
    (h3 : strFind s tagFcOpen = -1)
    (h4 : jsonParse (pyStrip (genericBracketSlice s)) = none)
    (h5 : jsonParse (pyStrip (genericAngleSlice s)) = none) :
    (extract_function_call_json v (PyIn.strs [s]) rm).1
      = (if rm then ExtractRet.pair none s else ExtractRet.single none) ∧
    (extract_function_call_json_from_qwen v (PyIn.strs [s]) rm).1
      = (if rm then ExtractRet.pair none s else ExtractRet.single none) := by
  have hflat : ([s] : List Str).flatten = s := by simp
  constructor
  · simp only [extract_function_call_json, hflat, h0, h4, h5, retWith]
  · have htc : qwenToolCallAttempt v s rm = (none, []) := by
      have hne : ¬ (strFind s tagTcOpen ≠ -1 ∧ strFind s tagTcClose ≠ -1) := by
        rcases h2 with h | h
        · exact fun hc => hc.1 h
        · exact fun hc => hc.2 h
      simp only [qwenToolCallAttempt, if_neg hne]
    have hbr : qwenBracketAttempt v s rm = (none, []) := by
      simp only [qwenBracketAttempt, h1]
      simp
    have hfc : qwenFuncallAttempt v s rm = (none, []) := by
      simp only [qwenFuncallAttempt, h3]
      simp
    simp only [extract_function_call_json_from_qwen, hflat, h0, htc, hbr, hfc, retWith]

/-- C1 witness: plain prose yields the absent call and the full text as
message from both extractors. -/
theorem c1_witness :
    (extract_function_call_json true (PyIn.strs [pys ("This is plain prose.")]) true).1
      = (if true then ExtractRet.pair none (pys ("This is plain prose."))
         else ExtractRet.single none) ∧
    (extract_function_call_json_from_qwen true (PyIn.strs [pys ("This is plain prose.")]) true).1
      = (if true then ExtractRet.pair none (pys ("This is plain prose."))
         else ExtractRet.single none) :=
  c1_no_shape_extraction (pys ("This is plain prose.")) true true rfl rfl (Or.inl rfl) rfl rfl rfl

/-- C3, amended: for the bracket tag format the claim holds in both
extractors: when [TOOL_CALLS] occurs and neither end marker occurs, the
attempted slice runs from just after the marker to the end of the string, and
extraction parses exactly that full tail slice (here shown on the successful
parse, with the text before the marker as the message).  For the angle tag
format the claim fails (see the counterexample): the generic extractor stops
one character before the end and the qwen extractor skips the attempt. -/
theorem c3_bracket_tail_slice (s : Str) (i : Nat) (j : J) (v : Bool)
    (h0 : jsonParse (pyStrip s) = none)
    (h1 : strFind s tagToolCalls = (i : Int))
    (h2 : strFind s tagEos = -1)
    (h3 : strFind s tagEom = -1)
    (h4 : strFind s tagTcOpen = -1)
    (h5 : jsonParse (pyStrip (pySliceFrom s ((i : Int) + (tagToolCalls.length : Int))))
      = some j) :
    genericBracketSlice s = pySliceFrom s ((i : Int) + (tagToolCalls.length : Int)) ∧
    (extract_function_call_json v (PyIn.strs [s]) true).1
      = ExtractRet.pair (some j) (pySliceTo s (i : Int)) ∧
    (extract_function_call_json_from_qwen v (PyIn.strs [s]) true).1
      = ExtractRet.pair (some j) (pySliceTo s (i : Int)) := by
  have hslice : genericBracketSlice s
      = pySliceFrom s ((i : Int) + (tagToolCalls.length : Int)) := by
    simp only [genericBracketSlice, h1, h2, h3]
    simp
  have hflat : ([s] : List Str).flatten = s := by simp
  refine ⟨hslice, ?_, ?_⟩
  · simp only [extract_function_call_json, hflat, h0, hslice, h5, retWith, if_true, h1]
  · have htc : qwenToolCallAttempt v s true = (none, []) := by
      have hne : ¬ (strFind s tagTcOpen ≠ -1 ∧ strFind s tagTcClose ≠ -1) :=
        fun hc => hc.1 h4
      simp only [qwenToolCallAttempt, if_neg hne]
    have hpos : (i : Int) ≠ -1 := by omega
    have hbr : qwenBracketAttempt v s true
        = (some (ExtractRet.pair (some j) (pySliceTo s (i : Int))), []) := by
      simp only [qwenBracketAttempt, h1, if_pos hpos, hslice, h5, retWith, if_true]
    simp only [extract_function_call_json_from_qwen, hflat, h0, htc, hbr]

/-- C3 witness: a concrete text with [TOOL_CALLS] and no end marker is parsed
from just after the marker to the end of the string by both extractors. -/
theorem c3_witness :
    genericBracketSlice (pys ("abc[TOOL_CALLS] \x7b\"name\": \"f\", \"arguments\": \x7b\x7d\x7d"))
      = pySliceFrom (pys ("abc[TOOL_CALLS] \x7b\"name\": \"f\", \"arguments\": \x7b\x7d\x7d"))
          (((3 : Nat) : Int) + (tagToolCalls.length : Int)) ∧
    (extract_function_call_json true
        (PyIn.strs [pys ("abc[TOOL_CALLS] \x7b\"name\": \"f\", \"arguments\": \x7b\x7d\x7d")])
        true).1
      = ExtractRet.pair (some fCallEmpty)
          (pySliceTo (pys ("abc[TOOL_CALLS] \x7b\"name\": \"f\", \"arguments\": \x7b\x7d\x7d"))
            ((3 : Nat) : Int)) ∧
    (extract_function_call_json_from_qwen true
        (PyIn.strs [pys ("abc[TOOL_CALLS] \x7b\"name\": \"f\", \"arguments\": \x7b\x7d\x7d")])
        true).1
      = ExtractRet.pair (some fCallEmpty)
          (pySliceTo (pys ("abc[TOOL_CALLS] \x7b\"name\": \"f\", \"arguments\": \x7b\x7d\x7d"))
            ((3 : Nat) : Int)) :=
  c3_bracket_tail_slice (pys ("abc[TOOL_CALLS] \x7b\"name\": \"f\", \"arguments\": \x7b\x7d\x7d"))
    3 fCallEmpty true rfl rfl rfl rfl rfl rfl

/-- The unknown argument names collected by the scan, in call order. -/
def invalidOf (props : List (Str × PropDesc)) (args : List (Str × J)) : List Str :=
  (args.filter (fun kv => (lookupP props kv.1).isNone)).map Prod.fst

/-- Every argument present in the schema has a supported declared type. -/
def allTypesSupported (props : List (Str × PropDesc)) (args : List (Str × J)) : Bool :=
  args.all (fun kv =>
    match lookupP props kv.1 with
    | some pd => (typeMap pd.type).isSome
    | none => true)

/-- When no known argument has an unsupported declared type, the scan reaches
the end of the argument list and collects exactly the unknown names. -/
theorem scanArgs_of_supported (props : List (Str × PropDesc)) :
    ∀ (args : List (Str × J)) (inv : List Str) (mis : List (Str × Str × Str)),
      allTypesSupported props args = true →
      ∃ mis2, scanArgs props args inv mis = ScanOut.done (inv ++ invalidOf props args) mis2 := by
  intro args
  induction args with
  | nil =>
    intro inv mis _
    exact ⟨mis, by simp [scanArgs, invalidOf]⟩
  | cons kv rest ih =>
    intro inv mis hall
    obtain ⟨p, v⟩ := kv
    cases hl : lookupP props p with
    | none =>
      have hall2 : allTypesSupported props rest = true := by
        simp only [allTypesSupported, List.all_cons, Bool.and_eq_true] at hall
        exact hall.2
      obtain ⟨mis2, hm⟩ := ih (inv ++ [p]) mis hall2
      refine ⟨mis2, ?_⟩
      simp only [scanArgs, hl]
      rw [hm]
      simp [invalidOf, List.filter_cons, hl, List.append_assoc]
    | some pd =>
      have hsup : (typeMap pd.type).isSome = true := by
        simp only [allTypesSupported, List.all_cons, Bool.and_eq_true] at hall
        have := hall.1
        simpa [hl] using this
      have hall2 : allTypesSupported props rest = true := by
        simp only [allTypesSupported, List.all_cons, Bool.and_eq_true] at hall
        exact hall.2
      obtain ⟨ty, hty⟩ := Option.isSome_iff_exists.mp hsup
      have hinv : invalidOf props ((p, v) :: rest) = invalidOf props rest := by
        simp [invalidOf, List.filter_cons, hl]
      cases hins : isinstance v ty with
      | true =>
        obtain ⟨mis2, hm⟩ := ih inv mis hall2
        refine ⟨mis2, ?_⟩
        simp only [scanArgs, hl, hty, hins, if_true]
        rw [hm, hinv]
      | false =>
        obtain ⟨mis2, hm⟩ := ih inv (mis ++ [(p, pd.type, pyTypeName v)]) hall2
        refine ⟨mis2, ?_⟩
        simp only [scanArgs, hl, hty, hins]
        rw [if_neg (by simp), hm, hinv]

/-- C5, amended: when the names match, no required argument is missing and no
known argument has an unsupported declared type, an unknown argument makes
evaluate_function_call fail with the invalid-parameter reason listing every
unknown name, before any type conformance failure is reported.  (Without the
supported-type condition the claim fails: see the counterexample, where an
unsupported declared type on a known argument preempts the unknown-argument
failure.) -/
theorem c5_unknown_args_before_type_failures (td : ToolDef) (fc : FunctionCall)
    (hname : (td.name == fc.name) = true)
    (hmiss : missingParams td.parameter.properties fc.arguments = [])
    (hsup : allTypesSupported td.parameter.properties fc.arguments = true)
    (hinv : invalidOf td.parameter.properties fc.arguments ≠ []) :
    evaluate_function_call td fc
      = (false, pys ("Invalid parameters provided: ")
          ++ pyReprStrList (invalidOf td.parameter.properties fc.arguments)) := by
  obtain ⟨mis2, hscan⟩ :=
    scanArgs_of_supported td.parameter.properties fc.arguments [] [] hsup
  have hne : (invalidOf td.parameter.properties fc.arguments).isEmpty = false := by
    cases hE : invalidOf td.parameter.properties fc.arguments with
    | nil => exact absurd hE hinv
    | cons a l => rfl
  simp only [evaluate_function_call, hname, hmiss, hscan, List.nil_append, hne,
    Bool.not_true, Bool.not_false, if_false, if_true, List.isEmpty_nil]
  simp

/-- C5 witness: a call with the unknown argument z against a one-parameter
schema of supported types fails with the invalid-parameter reason. -/
theorem c5_witness :
    evaluate_function_call ⟨pys ("t"), ⟨[(pys ("a"), ⟨pys ("string"), false⟩)]⟩⟩
        ⟨pys ("t"), [(pys ("z"), J.int 1), (pys ("a"), J.str (pys ("u")))]⟩
      = (false, pys ("Invalid parameters provided: ")
          ++ pyReprStrList (invalidOf [(pys ("a"), ⟨pys ("string"), false⟩)]
              [(pys ("z"), J.int 1), (pys ("a"), J.str (pys ("u")))])) :=
  c5_unknown_args_before_type_failures
    ⟨pys ("t"), ⟨[(pys ("a"), ⟨pys ("string"), false⟩)]⟩⟩
    ⟨pys ("t"), [(pys ("z"), J.int 1), (pys ("a"), J.str (pys ("u")))]⟩
    rfl rfl rfl (by decide)

/-- The outcome of the tool_call attempt does not depend on the verbose flag
(only its printed lines do). -/
theorem qwenTc_fst (s : Str) (rm : Bool) :
    (qwenToolCallAttempt true s rm).1 = (qwenToolCallAttempt false s rm).1 := by
  by_cases h : strFind s tagTcOpen ≠ -1 ∧ strFind s tagTcClose ≠ -1
  · simp only [qwenToolCallAttempt, if_pos h]
    cases hp : jsonParse (pyStrip (pySlice s (strFind s tagTcOpen + (tagTcOpen.length : Int))
        (strFind s tagTcClose))) <;> simp
  · simp only [qwenToolCallAttempt, if_neg h]

/-- The outcome of the bracket tag attempt does not depend on the verbose flag. -/
theorem qwenBr_fst (s : Str) (rm : Bool) :
    (qwenBracketAttempt true s rm).1 = (qwenBracketAttempt false s rm).1 := by
  by_cases h : strFind s tagToolCalls ≠ -1
  · simp only [qwenBracketAttempt, if_pos h]
    cases hp : jsonParse (pyStrip (genericBracketSlice s)) <;> simp
  · simp only [qwenBracketAttempt, if_neg h]

/-- The outcome of the angle tag attempt does not depend on the verbose flag. -/
theorem qwenFc_fst (s : Str) (rm : Bool) :
    (qwenFuncallAttempt true s rm).1 = (qwenFuncallAttempt false s rm).1 := by
  by_cases h : strFind s tagFcOpen ≠ -1
  · simp only [qwenFuncallAttempt, if_pos h]
    by_cases h2 : strFind s tagFcClose ≠ -1
    · simp only [if_pos h2]
      cases hp : jsonParse (pyStrip (pySlice s (strFind s tagFcOpen + (tagFcOpen.length : Int))
          (strFind s tagFcClose))) <;> simp
    · simp only [if_neg h2]
  · simp only [qwenFuncallAttempt, if_neg h]

/-- C9: the verbose flag never alters the extracted result of either
extraction function; it only controls the printed diagnostic lines. -/
theorem c9_verbose_independent (lst : PyIn) (rm : Bool) :
    (extract_function_call_json true lst rm).1 = (extract_function_call_json false lst rm).1 ∧
    (extract_function_call_json_from_qwen true lst rm).1
      = (extract_function_call_json_from_qwen false lst rm).1 := by
  constructor
  · cases lst with
    | dict d => rfl
    | strs parts =>
      simp only [extract_function_call_json]
      cases h0 : jsonParse (pyStrip parts.flatten) with
      | some j => simp
      | none =>
        cases h1 : jsonParse (pyStrip (genericBracketSlice parts.flatten)) with
        | some j => simp
        | none =>
          cases h2 : jsonParse (pyStrip (genericAngleSlice parts.flatten)) <;> simp
  · cases lst with
    | dict d => rfl
    | strs parts =>
      simp only [extract_function_call_json_from_qwen]
      cases h0 : jsonParse (pyStrip parts.flatten) with
      | some j => simp
      | none =>
        rcases hA : qwenToolCallAttempt true parts.flatten rm with ⟨o1, lgA⟩
        rcases hB : qwenToolCallAttempt false parts.flatten rm with ⟨o2, lgB⟩
        have ho : o1 = o2 := by
          have h := qwenTc_fst parts.flatten rm
          rw [hA, hB] at h
          exact h
        subst ho
        cases o1 with
        | some r => simp
        | none =>
          rcases hC : qwenBracketAttempt true parts.flatten rm with ⟨p1, lgC⟩
          rcases hD : qwenBracketAttempt false parts.flatten rm with ⟨p2, lgD⟩
          have hp : p1 = p2 := by
            have h := qwenBr_fst parts.flatten rm
            rw [hC, hD] at h
            exact h
          subst hp
          cases p1 with
          | some r => simp
          | none =>
            rcases hE : qwenFuncallAttempt true parts.flatten rm with ⟨q1, lgE⟩
            rcases hF : qwenFuncallAttempt false parts.flatten rm with ⟨q2, lgF⟩
            have hq : q1 = q2 := by
              have h := qwenFc_fst parts.flatten rm
              rw [hE, hF] at h
              exact h
            subst hq
            cases q1 with
            | some r => simp
            | none => simp

/-- A successful lookup returns a binding of the list. -/
theorem mem_of_lookupJ (l : List (Str × J)) (k : Str) (v : J)
    (h : lookupJ l k = some v) : (k, v) ∈ l := by
  induction l with
  | nil => cases h
  | cons kv rest ih =>
    obtain ⟨k0, v0⟩ := kv
    by_cases hb : (k0 == k) = true
    · have hk : k0 = k := eq_of_beq hb
      simp only [lookupJ, hb, if_true, Option.some.injEq] at h
      subst hk
      subst h
      exact List.mem_cons_self _ _
    · simp only [lookupJ, hb, if_false] at h
      exact List.mem_cons_of_mem _ (ih h)

/-- With duplicate free keys, every binding is found by lookup. -/
theorem lookupJ_of_nodup_mem (l : List (Str × J)) (k : Str) (v : J)
    (hnd : keysND (l.map Prod.fst) = true) (hm : (k, v) ∈ l) : lookupJ l k = some v := by
  induction l with
  | nil => cases hm
  | cons kv rest ih =>
    obtain ⟨k0, v0⟩ := kv
    simp only [List.map_cons, keysND, Bool.and_eq_true, Bool.not_eq_true'] at hnd
    rcases List.mem_cons.mp hm with heq | hmem
    · injection heq with hk hv
      subst hk
      subst hv
      simp [lookupJ]
    · have hkmem : k ∈ rest.map Prod.fst := List.mem_map_of_mem Prod.fst hmem
      have hbf : (k0 == k) = false := by
        by_contra hc
        rw [Bool.not_eq_false] at hc
        have hk : k0 = k := eq_of_beq hc
        subst hk
        have hcon : (rest.map Prod.fst).contains k0 = true := List.elem_eq_true_of_mem hkmem
        rw [hnd.1] at hcon
        cases hcon
      simp only [lookupJ, hbf, if_false]
      exact ih hnd.2 hmem

/-- Well-formedness of a field list gives well-formedness of every value. -/
theorem jWfFields_mem (l : List (Str × J)) (hf : jWfFields l = true) :
    ∀ kv ∈ l, jWf kv.2 = true := by
  induction l with
  | nil => intro kv hkv; cases hkv
  | cons kv0 rest ih =>
    obtain ⟨k0, v0⟩ := kv0
    simp only [jWfFields, Bool.and_eq_true] at hf
    intro kv hkv
    rcases List.mem_cons.mp hkv with heq | hmem
    · subst heq; exact hf.1
    · exact ih hf.2 kv hmem

/-- Well-formedness of an element list gives well-formedness of every element. -/
theorem jWfList_mem (l : List J) (hf : jWfList l = true) : ∀ x ∈ l, jWf x = true := by
  induction l with
  | nil => intro x hx; cases hx
  | cons y rest ih =>
    simp only [jWfList, Bool.and_eq_true] at hf
    intro x hx
    rcases List.mem_cons.mp hx with heq | hmem
    · subst heq; exact hf.1
    · exact ih hf.2 x hmem

mutual

/-- Python == is reflexive on well-formed values. -/
theorem pyEq_refl : ∀ (v : J), jWf v = true → pyEq v v = true
  | J.null, _ => rfl
  | J.bool b, _ => by simp [pyEq]
  | J.int n, _ => by simp [pyEq]
  | J.float q, _ => by simp [pyEq]
  | J.str t, _ => by simp [pyEq]
  | J.arr xs, h => by
    have hl : jWfList xs = true := by simpa [jWf] using h
    simpa [pyEq] using pyEqList_refl xs hl
  | J.obj fs, h => by
    have hp : keysND (fs.map Prod.fst) = true ∧ jWfFields fs = true := by
      simpa [jWf] using h
    have hfields : pyEqFields fs fs = true :=
      pyEqFields_refl fs fs (fun kv hkv =>
        ⟨lookupJ_of_nodup_mem fs kv.1 kv.2 hp.1 (by simpa using hkv),
         jWfFields_mem fs hp.2 kv hkv⟩)
    simp [pyEq, hfields]

theorem pyEqList_refl : ∀ (l : List J), jWfList l = true → pyEqList l l = true
  | [], _ => rfl
  | x :: xs, h => by
    simp only [jWfList, Bool.and_eq_true] at h
    simp [pyEqList, pyEq_refl x h.1, pyEqList_refl xs h.2]

theorem pyEqFields_refl : ∀ (sub full : List (Str × J)),
    (∀ kv ∈ sub, lookupJ full kv.1 = some kv.2 ∧ jWf kv.2 = true) →
    pyEqFields sub full = true
  | [], _, _ => rfl
  | (k, v) :: rest, full, h => by
    have h1 := h (k, v) (List.mem_cons_self _ _)
    simp only [pyEqFields, h1.1, Bool.and_eq_true]
    exact ⟨pyEq_refl v h1.2,
           pyEqFields_refl rest full (fun kv hkv => h kv (List.mem_cons_of_mem _ hkv))⟩

end

/-- Python set equality is reflexive. -/
theorem pySetEq_self (l : List Str) : pySetEq l l = true := by
  simp only [pySetEq, Bool.and_eq_true, List.all_eq_true]
  exact ⟨fun k hk => List.elem_eq_true_of_mem hk, fun k hk => List.elem_eq_true_of_mem hk⟩

/-- A key of the list is always found by lookup. -/
theorem lookupJ_of_mem_keys (l : List (Str × J)) (k : Str)
    (h : k ∈ l.map Prod.fst) : ∃ v, lookupJ l k = some v := by
  induction l with
  | nil => cases h
  | cons kv rest ih =>
    obtain ⟨k0, v0⟩ := kv
    by_cases hb : (k0 == k) = true
    · exact ⟨v0, by simp [lookupJ, hb]⟩
    · have h2 : k = k0 ∨ ∃ x, (k, x) ∈ rest := by simpa using h
      have hmem : k ∈ rest.map Prod.fst := by
        rcases h2 with heq | ⟨x, hx⟩
        · subst heq
          simp at hb
        · exact List.mem_map_of_mem Prod.fst hx
      obtain ⟨v, hv⟩ := ih hmem
      exact ⟨v, by simp [lookupJ, hb, hv]⟩

/-- The value comparison loop of compare_function_calls finds no mismatch when
both sides are the same well-formed argument dictionary. -/
theorem collect_refl (args : List (Str × J)) (hwf : ∀ kv ∈ args, jWf kv.2 = true) :
    ∀ ks : List Str, (∀ k ∈ ks, k ∈ keysOf args) →
      collectMismatches args args ks = Except.ok [] := by
  intro ks
  induction ks with
  | nil => intro _; rfl
  | cons k ks ih =>
    intro hks
    obtain ⟨v, hv⟩ := lookupJ_of_mem_keys args k (hks k (List.mem_cons_self _ _))
    have hmem : (k, v) ∈ args := mem_of_lookupJ args k v hv
    have hwfv : jWf v = true := hwf (k, v) hmem
    simp only [collectMismatches, hv]
    rw [ih (fun k2 hk2 => hks k2 (List.mem_cons_of_mem _ hk2))]
    simp [pyEq_refl v hwfv]

/-- C8: compare_function_calls is reflexive: comparing any function call with
itself, with both comparison flags enabled, returns the exact success verdict
(true, "Function calls match."), provided the nested dictionaries of the
argument values are well formed as every Python dictionary is. -/
theorem c8_compare_refl (c : FunctionCall)
    (h : ∀ kv ∈ c.arguments, jWf kv.2 = true) :
    compare_function_calls c c true true = Except.ok (true, pys ("Function calls match.")) := by
  have hcoll := collect_refl c.arguments h (keysOf c.arguments) (fun k hk => hk)
  simp only [compare_function_calls, beq_self_eq_true, Bool.not_true, pySetEq_self,
    Bool.and_false, hcoll, if_false, if_true]
  simp

/-- C8 witness: reflexivity at a concrete call. -/
theorem c8_witness :
    compare_function_calls ⟨pys ("f"), [(pys ("x"), J.int 1)]⟩
        ⟨pys ("f"), [(pys ("x"), J.int 1)]⟩ true true
      = Except.ok (true, pys ("Function calls match.")) :=
  c8_compare_refl ⟨pys ("f"), [(pys ("x"), J.int 1)]⟩ (by decide)
